import Mathlib

/-!
# Hermes P2P listener (`hermes/src/network/p2p.go`)

A shallow embedding of `RegisterObservationCallback`: the configuration
parsing, the `routine` closure (construction steps, receive loop, deferred
calls) and the `recoverRerun` closure, as a step function on goroutine states
driven by the results of the external calls.
-/

namespace P2P

/-! ## Data -/

abbrev Bytes := List (Fin 256)

/-- Go `strings.Split(s, sep)` for a separator of one character, on the
characters of `s`: the pieces between the separators, empty pieces kept. -/
def splitChars (sep : Char) : List Char → List (List Char)
  | [] => [[]]
  | c :: cs =>
    if c = sep then [] :: splitChars sep cs
    else
      match splitChars sep cs with
      | [] => [[c]]
      | w :: ws => (c :: w) :: ws

/-- The call `strings.Split(s, ",")` of lines 58 and 59. -/
def stringsSplit (s : String) : List String :=
  (splitChars ',' s.data).map String.mk

abbrev Multiaddr := String

/-- The `peer.AddrInfo` of go-libp2p: a peer identifier and its addresses. -/
structure AddrInfo where
  ID : String
  Addrs : List Multiaddr
deriving DecidableEq

/-- Modelled from the spec: the generated `SignedVAAWithQuorum` message, the
"QuorumAttestation { payload: bytes }" of the specification. -/
structure SignedVAAWithQuorum where
  Vaa : Bytes
deriving DecidableEq

/-- Modelled from the spec: the oneof wrapper types generated from `p2p.proto`
(the generated file is not part of the sources at hand). The spec gives "a
tagged union with at least two variants: Observation (ignored) and
QuorumAttestation { payload: bytes } (forwarded)"; `other` stands for any
further variant of the schema. The inner message of a wrapper is a pointer and
may be nil. -/
inductive isGossipMessage_Message where
  | SignedObservation (observation : Bytes)
  | SignedVaaWithQuorum (inner : Option SignedVAAWithQuorum)
  | other (field : Nat)
deriving DecidableEq

/-- Modelled from the spec: the generated `GossipMessage` struct, whose
`Message` field is an interface value, nil when no variant is set. -/
structure GossipMessage where
  Message : Option isGossipMessage_Message
deriving DecidableEq

/-- Modelled from the spec: the generated getter `GetVaa`, which yields the
payload of an attestation and the empty slice on a nil receiver. -/
def SignedVAAWithQuorum.GetVaa : Option SignedVAAWithQuorum → Bytes
  | some v => v.Vaa
  | none => []

/-- Modelled from the spec: the generated getter `GetSignedVaaWithQuorum`,
which yields the inner message when the attestation variant is set and nil
otherwise. -/
def GossipMessage.GetSignedVaaWithQuorum (msg : GossipMessage) : Option SignedVAAWithQuorum :=
  match msg.Message with
  | some (.SignedVaaWithQuorum inner) => inner
  | _ => none

/-- The external functions the routine calls on data: the multiaddress parser,
the address-info resolver, the protobuf decoder, and the listening of the host
on its parsed listen addresses (which depends on the transports the host has:
an address that parses may still be one no transport can listen on).
`Unmarshal` yields the message value as the call leaves it together with the
error it returns. -/
structure Env where
  NewMultiaddr : String → Except String Multiaddr
  AddrInfoFromP2pAddr : Multiaddr → Except String AddrInfo
  Unmarshal : Bytes → GossipMessage × Option String
  Listen : List Multiaddr → Except String Unit

/-! ## Configuration (lines 56-59) -/

/-- The values captured by the closures: the callback is external, the three
strings are converted and split on entry. -/
structure Config where
  networkID : String
  bootstrapAddrs : List String
  listenAddrs : List String
deriving DecidableEq

/-- Lines 57-59 of `RegisterObservationCallback`. -/
def Config.ofStrings (network_id bootstrap_addrs listen_addrs : String) : Config :=
  { networkID := network_id
    bootstrapAddrs := stringsSplit bootstrap_addrs
    listenAddrs := stringsSplit listen_addrs }

/-! ## The routing closure (lines 127-141) -/

/-- One iteration of the loop of lines 129-141: the entry is skipped when it
does not parse, when it does not resolve, or when it names the host itself. -/
def bootstrapStep (env : Env) (hID : String) (bootstrappers : List AddrInfo) (addr : String) :
    List AddrInfo :=
  match env.NewMultiaddr addr with
  | .error _ => bootstrappers
  | .ok ma =>
    match env.AddrInfoFromP2pAddr ma with
    | .error _ => bootstrappers
    | .ok pi =>
      if pi.ID = hID then bootstrappers
      else bootstrappers ++ [pi]

/-- The list `bootstrappers` handed to `dht.BootstrapPeers` (lines 128-144). -/
def bootstrappers (env : Env) (hID : String) (bootstrapAddrs : List String) : List AddrInfo :=
  bootstrapAddrs.foldl (bootstrapStep env hID) []

/-- The seed list as the specification words it: the entries that parse,
resolve and do not name this host, resolved, in their original order. -/
def seedEntry (env : Env) (hID : String) (addr : String) : Option AddrInfo :=
  match env.NewMultiaddr addr with
  | .error _ => none
  | .ok ma =>
    match env.AddrInfoFromP2pAddr ma with
    | .error _ => none
    | .ok pi => if pi.ID = hID then none else some pi

/-- The routing seed list for a bootstrap-address configuration string. -/
def routingSeeds (env : Env) (hID : String) (bootstrap_addrs : String) : List AddrInfo :=
  bootstrappers env hID (Config.ofStrings "" bootstrap_addrs "").bootstrapAddrs

/-! ## Host construction (lines 99-154) -/

/-- The option `libp2p.ListenAddrStrings` of go-libp2p (an external library):
it parses the strings in order and fails with the first parse error. -/
def ListenAddrStrings (env : Env) : List String → Except String (List Multiaddr)
  | [] => .ok []
  | s :: rest =>
    match env.NewMultiaddr s with
    | .error e => .error e
    | .ok a =>
      match ListenAddrStrings env rest with
      | .error e => .error e
      | .ok as => .ok (a :: as)

/-- The outcome of an external call: it returns without error, returns an
error, or panics. -/
inductive Ret where
  | ok
  | err (e : String)
  | panicked (v : String)
deriving DecidableEq

/-- The call `libp2p.New(...)` of lines 99-148. The options are applied first,
and a failing option fails the construction: the listen entries go to
`ListenAddrStrings` as they are. `rest` is the outcome of the construction
that does not depend on the listen addresses (swarm, routing, security).
When that succeeds the host listens on the parsed addresses, and a failure to
listen fails the construction too. -/
def libp2pNew (env : Env) (listenAddrs : List String) (rest : Ret) : Ret :=
  match ListenAddrStrings env listenAddrs with
  | .error e => .err e
  | .ok addrs =>
    match rest with
    | .ok =>
      match env.Listen addrs with
      | .error e => .err e
      | .ok _ => .ok
    | failed => failed

/-! ## The C side: buffers and the callback -/

/-- The C heap as far as the routine uses it: the buffers allocated by
`C.CBytes` and not yet released by `C.free`, and the next fresh address. -/
structure CHeap where
  live : List (Nat × Bytes)
  next : Nat
deriving DecidableEq

/-- The call `C.CBytes(b)`: a fresh buffer holding a copy of `b`. -/
def CHeap.CBytes (h : CHeap) (b : Bytes) : Nat × CHeap :=
  (h.next, { live := (h.next, b) :: h.live, next := h.next + 1 })

/-- The call `C.free(p)`. -/
def CHeap.free (h : CHeap) (p : Nat) : CHeap :=
  { h with live := h.live.filter (fun x => x.1 ≠ p) }

/-- The contents of the live buffer at address `p`. -/
def CHeap.read (h : CHeap) (p : Nat) : Option Bytes :=
  (h.live.find? (fun x => x.1 = p)).map Prod.snd

/-- The C struct `observation_t` of lines 15-18. -/
structure observation_t where
  vaa : Nat
  vaa_len : Nat
deriving DecidableEq

/-! ## Goroutines -/

/-- The calls a run defers. -/
inductive Deferred where
  | recoverRerun
  | hClose
  | thClose
  | subCancel
  | free (cBytes : Nat)
deriving DecidableEq

/-- What the program does that can be seen from outside, in order. -/
inductive Output where
  | println (s : String)
  | stderr (s : String)
  | invoke (o : observation_t) (buffer : Option Bytes)
  | released (d : Deferred)
  | sleep (ns : Int)
  | goRoutine
deriving DecidableEq

/-- The place a goroutine running `routine` has reached: the next external
call it makes, `deferred` while the deferred calls run, `exited` once the
function has returned, `crashed` when a panic leaves the goroutine. -/
inductive Pc where
  | entry
  | GenerateKeyPair
  | NewConnManager
  | New
  | NewGossipSub
  | Join
  | Subscribe
  | Next
  | deferred
  | exited
  | crashed
deriving DecidableEq

/-- A goroutine running `routine`: its place, its stack of deferred calls
(latest first) and the panic in flight, if any. -/
structure Goroutine where
  pc : Pc
  defers : List Deferred
  panicking : Option String
deriving DecidableEq

/-- The state the goroutines share: the captured variable `startTime`, the C
heap, and the outputs so far. -/
structure World where
  startTime : Int
  heap : CHeap
  out : List Output
deriving DecidableEq

/-- What the environment answers to the step a goroutine takes: the clock
reading if the step reads the clock, the outcome of the external call if it
makes one, and the envelope data if that call is a successful `sub.Next`. -/
structure Input where
  now : Int
  ret : Ret
  data : Bytes

/-- The result of a step: the world, the goroutine, and whether the step
executed `go routine()`. -/
structure Stepped where
  w : World
  g : Goroutine
  spawn : Bool
deriving DecidableEq

def Second : Int := 1000000000

/-- Two's-complement wrap of a 64-bit signed result. -/
def wrapInt64 (x : Int) : Int := (x + 2 ^ 63) % 2 ^ 64 - 2 ^ 63

/-- A goroutine at the start of `routine`. -/
def Goroutine.fresh : Goroutine := { pc := .entry, defers := [], panicking := none }

/-- A fallible construction call followed by its `if err != nil` block: on
an error the wrapped error is printed and the function returns; a panic
starts unwinding; otherwise the routine goes on at `pc`, having deferred
`push`. -/
def construct (what : String) (r : Ret) (pc : Pc) (push : List Deferred)
    (w : World) (g : Goroutine) : Stepped :=
  match r with
  | .ok => { w := w, g := { g with pc := pc, defers := push ++ g.defers }, spawn := false }
  | .err e =>
    { w := { w with out := w.out ++ [.println (what ++ ": " ++ e)] }
      g := { g with pc := .deferred }, spawn := false }
  | .panicked v => { w := w, g := { g with pc := .deferred, panicking := some v }, spawn := false }

/-- Lines 197-211: the envelope is decoded, the error of the decoder is
assigned and not read, and the switch on the variant delivers a
`SignedVaaWithQuorum` through a fresh C buffer whose release is deferred. -/
def processEnvelope (env : Env) (w : World) (g : Goroutine) (data : Bytes) : Stepped :=
  let msg := (env.Unmarshal data).1
  match msg.Message with
  | some (.SignedVaaWithQuorum _) =>
    let vaaBytes := SignedVAAWithQuorum.GetVaa msg.GetSignedVaaWithQuorum
    let (cBytes, heap) := w.heap.CBytes vaaBytes
    let o : observation_t := { vaa := cBytes, vaa_len := vaaBytes.length }
    { w := { w with heap := heap, out := w.out ++ [.invoke o (heap.read cBytes)] }
      g := { g with defers := .free cBytes :: g.defers }, spawn := false }
  | _ => { w := w, g := g, spawn := false }

/-- Lines 184-195: one pass of the receive loop. The context is
`context.Background()`, whose `Done` channel never delivers, so the select
takes the default branch. -/
def receive (env : Env) (w : World) (g : Goroutine) (inp : Input) : Stepped :=
  match inp.ret with
  | .ok => processEnvelope env w g inp.data
  | .err e =>
    { w := { w with out := w.out ++ [.println ("Failed to receive Pubsub message: " ++ e)] }
      g := { g with pc := .deferred }, spawn := false }
  | .panicked v => { w := w, g := { g with pc := .deferred, panicking := some v }, spawn := false }

/-- Lines 217-231: `recoverRerun`, run as a deferred call. -/
def recoverRerun (w : World) (panicking : Option String) (now : Int) : World :=
  let out₁ :=
    match panicking with
    | some v => w.out ++ [.stderr ("p2p.go error: " ++ v ++ "\n")]
    | none => w.out
  let elapsed := wrapInt64 (now - w.startTime)
  let out₂ := if elapsed < 30 * Second then out₁ ++ [.sleep (1 * Second)] else out₁
  { w with out := out₂ ++ [.goRoutine] }

/-- One deferred call is popped and run. The error a `Close` returns is
dropped; a panic of a `Close` or `Cancel` becomes the panic in flight. -/
def runDeferred (w : World) (g : Goroutine) (inp : Input) : Stepped :=
  match g.defers with
  | [] =>
    match g.panicking with
    | none => { w := w, g := { g with pc := .exited }, spawn := false }
    | some _ => { w := w, g := { g with pc := .crashed }, spawn := false }
  | .recoverRerun :: ds =>
    { w := recoverRerun w g.panicking inp.now
      g := { g with defers := ds, panicking := none }, spawn := true }
  | .free cBytes :: ds =>
    { w := { w with heap := w.heap.free cBytes, out := w.out ++ [.released (.free cBytes)] }
      g := { g with defers := ds }, spawn := false }
  | d :: ds =>
    let w' := { w with out := w.out ++ [.released d] }
    match inp.ret with
    | .panicked v => { w := w', g := { g with defers := ds, panicking := some v }, spawn := false }
    | _ => { w := w', g := { g with defers := ds }, spawn := false }

/-- One step of a goroutine running `routine` (lines 69-215). -/
def Goroutine.step (env : Env) (cfg : Config) (w : World) (g : Goroutine) (inp : Input) :
    Stepped :=
  match g.pc with
  | .entry =>
    { w := { w with startTime := inp.now }
      g := { g with pc := .GenerateKeyPair, defers := .recoverRerun :: g.defers }, spawn := false }
  | .GenerateKeyPair =>
    construct "Failed to generate key pair" inp.ret .NewConnManager [] w g
  | .NewConnManager =>
    construct "Failed to create connection manager" inp.ret .New [] w g
  | .New =>
    construct "Failed to create libp2p host" (libp2pNew env cfg.listenAddrs inp.ret)
      .NewGossipSub [.hClose] w g
  | .NewGossipSub =>
    construct "Failed to create Pubsub" inp.ret .Join [] w g
  | .Join =>
    construct "Failed to join topic" inp.ret .Subscribe [.thClose] w g
  | .Subscribe =>
    construct "Failed to subscribe topic" inp.ret .Next [.subCancel] w g
  | .Next => receive env w g inp
  | .deferred => runDeferred w g inp
  | .exited => { w := w, g := g, spawn := false }
  | .crashed => { w := w, g := g, spawn := false }

/-- A goroutine taken through a list of answers, one step each. -/
def Goroutine.run (env : Env) (cfg : Config) (w : World) (g : Goroutine) :
    List Input → World × Goroutine
  | [] => (w, g)
  | inp :: rest =>
    let r := g.step env cfg w inp
    Goroutine.run env cfg r.w r.g rest

/-! ## The supervisor: the pool of goroutines of one registration -/

/-- The states of the supervisor of the specification. -/
inductive SupervisorState where
  | STARTING
  | RUNNING
  | FAILED
  | BACKOFF
deriving DecidableEq

/-- The supervisor state a goroutine is in while its run is active: none once
`recoverRerun` has run (the function is returning) or the goroutine is gone. -/
def Goroutine.phase (g : Goroutine) : Option SupervisorState :=
  match g.pc with
  | .Next => some .RUNNING
  | .deferred =>
    match g.defers with
    | [] => none
    | [.recoverRerun] => some .BACKOFF
    | _ => some .FAILED
  | .exited => none
  | .crashed => none
  | _ => some .STARTING

/-- The shared state and the goroutines started so far, in order of start. -/
structure Sys where
  w : World
  gs : List Goroutine
deriving DecidableEq

/-- The state right after `RegisterObservationCallback` returns (line 233):
`startTime` holds its zero value and one goroutine is at the start of
`routine`. -/
def Sys.init : Sys :=
  { w := { startTime := 0, heap := { live := [], next := 0 }, out := [] }
    gs := [Goroutine.fresh] }

/-- The function `RegisterObservationCallback` (lines 56-234): the captured
configuration and the state it leaves behind when it returns. -/
def RegisterObservationCallback (network_id bootstrap_addrs listen_addrs : String) :
    Config × Sys :=
  (Config.ofStrings network_id bootstrap_addrs listen_addrs, Sys.init)

/-- The scheduler lets goroutine `i` take one step with answer `inp`; a
`go routine()` adds a goroutine. -/
def Sys.step (env : Env) (cfg : Config) (s : Sys) (i : Nat) (inp : Input) : Sys :=
  match s.gs[i]? with
  | none => s
  | some g =>
    let r := g.step env cfg s.w inp
    { w := r.w, gs := s.gs.set i r.g ++ (if r.spawn then [Goroutine.fresh] else []) }

/-- The states the program can be in, under any schedule and any answers. -/
inductive Reachable (env : Env) (cfg : Config) : Sys → Prop where
  | init : Reachable env cfg Sys.init
  | step (s : Sys) (i : Nat) (inp : Input) :
      Reachable env cfg s → Reachable env cfg (s.step env cfg i inp)

/-- The callback invocations among a list of outputs. -/
def invocations : List Output → List (observation_t × Option Bytes)
  | [] => []
  | .invoke o b :: rest => (o, b) :: invocations rest
  | _ :: rest => invocations rest

/-! ## A sample environment -/

/-- The wire bytes of a `GossipMessage` whose `signed_vaa_with_quorum` field
(field 4 in the gossip schema of Wormhole) holds a message with `vaa = "abc"`. -/
def abcEnvelope : Bytes := [0x22, 0x05, 0x0a, 0x03, 0x61, 0x62, 0x63]

/-- The bytes `abc`. -/
def abc : Bytes := [0x61, 0x62, 0x63]

/-- A decoder on a few envelopes: the well-formed attestation, the same bytes
followed by a truncated tag (the decoder has set the variant when it meets the
bad byte and returns its error), an observation, the empty message, and an
error with nothing decoded otherwise. -/
def sampleUnmarshal (data : Bytes) : GossipMessage × Option String :=
  if data = abcEnvelope then
    ({ Message := some (.SignedVaaWithQuorum (some { Vaa := abc })) }, none)
  else if data = abcEnvelope ++ [0xff] then
    ({ Message := some (.SignedVaaWithQuorum (some { Vaa := abc })) },
      some "proto: cannot parse invalid wire-format data")
  else if data = [0x12, 0x00] then
    ({ Message := some (.SignedObservation []) }, none)
  else if data = [] then
    ({ Message := none }, none)
  else
    ({ Message := none }, some "proto: cannot parse invalid wire-format data")

/-- A parser that accepts the strings that start with a slash and have a
component after it. -/
def sampleNewMultiaddr (s : String) : Except String Multiaddr :=
  match s.data with
  | '/' :: _ :: _ => .ok s
  | _ => .error "failed to parse multiaddr"

/-- A resolver that takes the peer identifier after a final `/p2p/`. -/
def sampleAddrInfoFromP2pAddr (ma : Multiaddr) : Except String AddrInfo :=
  match (splitChars '/' ma.data).reverse with
  | id :: p2p :: front =>
    if p2p = ['p', '2', 'p'] ∧ id ≠ [] then
      .ok { ID := String.mk id, Addrs := [String.mk (List.intercalate ['/'] front.reverse)] }
    else .error "invalid p2p multiaddr"
  | _ => .error "invalid p2p multiaddr"

/-- A host with the QUIC transport only (line 125): it can listen when there
is nothing to listen on or when some address has a QUIC component. -/
def sampleListen (addrs : List Multiaddr) : Except String Unit :=
  if addrs = [] ∨ addrs.any (fun a =>
      (splitChars '/' a.data).any (fun c => c = "quic-v1".data ∨ c = "quic".data)) then
    .ok ()
  else .error "failed to listen on any addresses"

def sampleEnv : Env :=
  { NewMultiaddr := sampleNewMultiaddr
    AddrInfoFromP2pAddr := sampleAddrInfoFromP2pAddr
    Unmarshal := sampleUnmarshal
    Listen := sampleListen }

/-- The configuration of the end-to-end scenario of the specification. -/
def sampleConfig : Config :=
  (RegisterObservationCallback "testnet" "" "/ip4/127.0.0.1/udp/0").1

/-- A goroutine in the receive loop, holding host, topic and subscription. -/
def receiving : Goroutine :=
  { pc := .Next, defers := [.subCancel, .thClose, .hClose, .recoverRerun], panicking := none }

/-- The answer "`sub.Next` returned an envelope with these bytes". -/
def envelope (data : Bytes) : Input := { now := 0, ret := .ok, data := data }

/-- The answer to a step that makes no call that can fail: a clock reading. -/
def clock (now : Int) : Input := { now := now, ret := .ok, data := [] }

/-- The answer "the external call returned this error". -/
def failing (now : Int) (e : String) : Input := { now := now, ret := .err e, data := [] }

/-- The line `recoverRerun` writes for the panic it recovers, if any. -/
def panicReport : Option String → List Output
  | some v => [.stderr ("p2p.go error: " ++ v ++ "\n")]
  | none => []

/-- The configuration with an empty listen-address string. -/
def emptyListenConfig : Config := (RegisterObservationCallback "testnet" "" "").1

/-- A goroutine about to construct the host. -/
def constructing : Goroutine :=
  { pc := .New, defers := [.recoverRerun], panicking := none }

/-- The stack of deferred calls has `recoverRerun` at the bottom and nowhere
else. -/
def Goroutine.bottom (g : Goroutine) : Prop :=
  ∃ ds, g.defers = ds ++ [.recoverRerun] ∧ .recoverRerun ∉ ds

/-- The goroutine runs a run of the routine: it is at the start with nothing
deferred, or further on with `recoverRerun` at the bottom of its stack. -/
def Goroutine.active (g : Goroutine) : Prop :=
  (g.pc = .entry ∧ g.defers = []) ∨
    (g.pc ≠ .entry ∧ g.pc ≠ .exited ∧ g.pc ≠ .crashed ∧ g.bottom)

/-- The goroutine has run all its deferred calls: it has returned, or is
returning with no panic in flight. -/
def Goroutine.finished (g : Goroutine) : Prop :=
  g.defers = [] ∧ (g.pc = .exited ∨ (g.pc = .deferred ∧ g.panicking = none))

/-- The goroutines are finished ones followed by one that runs a run. -/
def Sys.Inv (s : Sys) : Prop :=
  ∃ pre g, s.gs = pre ++ [g] ∧ (∀ x ∈ pre, x.finished) ∧ g.active

/-- Goroutine `i` takes one step for each answer of the list. -/
def Sys.steps (env : Env) (cfg : Config) (s : Sys) (i : Nat) (inputs : List Input) : Sys :=
  inputs.foldl (fun s inp => s.step env cfg i inp) s

/-- A goroutine at one of the external calls of a run, from key generation to
`sub.Next`. -/
def Pc.isCall : Pc → Bool
  | .GenerateKeyPair | .NewConnManager | .New | .NewGossipSub | .Join | .Subscribe | .Next => true
  | _ => false

/-- At most one goroutine is in a supervisor state: at most one run is
active. -/
def Sys.oneActiveRun (s : Sys) : Prop :=
  ∀ (i j : Nat) (gi gj : Goroutine), s.gs[i]? = some gi → s.gs[j]? = some gj →
    gi.phase ≠ none → gj.phase ≠ none → i = j

/-- No two goroutines are in the receive loop. -/
def Sys.noTwoRunning (s : Sys) : Prop :=
  ∀ (i j : Nat) (gi gj : Goroutine), s.gs[i]? = some gi → s.gs[j]? = some gj →
    gi.phase = some .RUNNING → gj.phase = some .RUNNING → i = j

/-- A step adds a goroutine only when the stepping goroutine runs
`recoverRerun` with no other deferred call left; the added goroutine is at
the start of the routine and the stepping one has nothing left to run. -/
def Sys.launchOnlyLast (env : Env) (cfg : Config) (s : Sys) : Prop :=
  ∀ (i : Nat) (inp : Input), (s.step env cfg i inp).gs.length ≠ s.gs.length →
    ∃ g : Goroutine, s.gs[i]? = some g ∧ g.pc = .deferred ∧ g.defers = [.recoverRerun] ∧
      (s.step env cfg i inp).gs =
        s.gs.set i { g with defers := [], panicking := none } ++ [Goroutine.fresh]

/-- In every goroutine with deferred calls left, `recoverRerun` is the one
at the bottom of the stack, below the releases, `sub.Cancel`, `th.Close` and
`h.Close`: it runs after them. -/
def Sys.recoverRerunLast (s : Sys) : Prop :=
  ∀ g ∈ s.gs, g.defers = [] ∨ g.bottom

/-- Some goroutine is in a supervisor state. -/
def Sys.hasActiveRun (s : Sys) : Prop :=
  ∃ (i : Nat) (g : Goroutine), s.gs[i]? = some g ∧ g.phase ≠ none

/-- No goroutine has been left by a panic. -/
def Sys.noCrash (s : Sys) : Prop :=
  ∀ g ∈ s.gs, g.pc ≠ .crashed

/-- A failing external call of a run, by error or by panic, sends the
goroutine into its deferred calls with the stack as it was. -/
def failureUnwinds (env : Env) (cfg : Config) : Prop :=
  ∀ (w : World) (g : Goroutine) (inp : Input), g.pc.isCall = true → inp.ret ≠ .ok →
    (g.step env cfg w inp).g.pc = .deferred ∧ (g.step env cfg w inp).g.defers = g.defers ∧
      (g.step env cfg w inp).spawn = false

/-- From a run that has ended, one step for each deferred call, whatever the
answers, ends with `recoverRerun` launching the routine: a goroutine at the
start of the routine has been added and the old one has left its run. -/
def Sys.relaunches (env : Env) (cfg : Config) (s : Sys) : Prop :=
  ∀ (i : Nat) (g : Goroutine), s.gs[i]? = some g → g.pc = .deferred → g.phase ≠ none →
    ∀ inputs : List Input, inputs.length = g.defers.length →
      (s.steps env cfg i inputs).gs.length = s.gs.length + 1 ∧
        (s.steps env cfg i inputs).gs.getLast? = some Goroutine.fresh ∧
        ((s.steps env cfg i inputs).gs[i]?).bind Goroutine.phase = none ∧
        (s.steps env cfg i inputs).w.out.getLast? = some .goRoutine

/-- A recovered panic changes what `recoverRerun` does by its report line
only. -/
def panicOnlyReported : Prop :=
  ∀ (w : World) (p : Option String) (now : Int),
    (recoverRerun w p now).out =
        w.out ++ panicReport p ++ (recoverRerun { w with out := [] } none now).out ∧
      (recoverRerun w p now).startTime = w.startTime ∧
      (recoverRerun w p now).heap = w.heap

/-- The state in a run whose key generation has failed: started at clock 0,
the goroutine is about to run `recoverRerun`. -/
def inFailedRun : Sys :=
  Sys.init.steps sampleEnv sampleConfig 0 [clock 0, failing 0 "no entropy"]

/-- The state after a run whose key generation fails: started at clock 0,
failed, and relaunched by `recoverRerun` at 2 seconds. -/
def afterFailedRun : Sys :=
  Sys.init.steps sampleEnv sampleConfig 0 [clock 0, failing 0 "no entropy", clock (2 * Second)]

/-! ## The receive loop on one envelope -/

theorem invocations_append (xs ys : List Output) :
    invocations (xs ++ ys) = invocations xs ++ invocations ys := by
  induction xs with
  | nil => rfl
  | cons x xs ih => cases x <;> simp [invocations, ih]

theorem CHeap.read_CBytes (h : CHeap) (b : Bytes) :
    (h.CBytes b).2.read (h.CBytes b).1 = some b := by
  simp [CHeap.CBytes, CHeap.read]

/-- The loop body on an envelope whose message value carries the attestation
variant, whatever the decoder returned as error. -/
theorem processEnvelope_quorum (env : Env) (w : World) (g : Goroutine) (data : Bytes)
    (inner : Option SignedVAAWithQuorum)
    (h : (env.Unmarshal data).1.Message = some (.SignedVaaWithQuorum inner)) :
    processEnvelope env w g data =
      { w := { w with
                heap := (w.heap.CBytes (SignedVAAWithQuorum.GetVaa inner)).2
                out := w.out ++ [.invoke
                  { vaa := w.heap.next, vaa_len := (SignedVAAWithQuorum.GetVaa inner).length }
                  (some (SignedVAAWithQuorum.GetVaa inner))] }
        g := { g with defers := .free w.heap.next :: g.defers }, spawn := false } := by
  have hr := CHeap.read_CBytes w.heap (SignedVAAWithQuorum.GetVaa inner)
  simp only [processEnvelope, h, GossipMessage.GetSignedVaaWithQuorum]
  simp only [CHeap.CBytes] at hr ⊢
  rw [hr]

/-- The loop body on an envelope whose message value carries another variant
or none. -/
theorem processEnvelope_other (env : Env) (w : World) (g : Goroutine) (data : Bytes)
    (h : ∀ inner, (env.Unmarshal data).1.Message ≠ some (.SignedVaaWithQuorum inner)) :
    processEnvelope env w g data = { w := w, g := g, spawn := false } := by
  cases hm : (env.Unmarshal data).1.Message with
  | none => simp [processEnvelope, hm]
  | some v =>
    cases v with
    | SignedVaaWithQuorum inner => exact absurd hm (h inner)
    | SignedObservation o => simp [processEnvelope, hm]
    | other n => simp [processEnvelope, hm]

/-- C1: an envelope that decodes to a `SignedVaaWithQuorum` message with
payload `p` makes the receive loop invoke the callback exactly once, with a
buffer that holds `p` and with `vaa_len = len(p)`; the loop then goes on. -/
theorem quorum_attestation_delivered_once (env : Env) (cfg : Config) (w : World)
    (g : Goroutine) (inp : Input) (p : Bytes)
    (hpc : g.pc = .Next) (hret : inp.ret = .ok)
    (hdec : env.Unmarshal inp.data =
      ({ Message := some (.SignedVaaWithQuorum (some { Vaa := p })) }, none)) :
    invocations ((g.step env cfg w inp).w.out.drop w.out.length) =
        [({ vaa := w.heap.next, vaa_len := p.length }, some p)] ∧
      (g.step env cfg w inp).w.out =
        w.out ++ [.invoke { vaa := w.heap.next, vaa_len := p.length } (some p)] ∧
      (g.step env cfg w inp).w.heap.read w.heap.next = some p ∧
      (g.step env cfg w inp).g.pc = .Next := by
  have hm : (env.Unmarshal inp.data).1.Message =
      some (.SignedVaaWithQuorum (some { Vaa := p })) := by rw [hdec]
  have hs : g.step env cfg w inp = processEnvelope env w g inp.data := by
    simp [Goroutine.step, hpc, receive, hret]
  rw [hs, processEnvelope_quorum env w g inp.data _ hm]
  refine ⟨?_, rfl, ?_, hpc⟩
  · simp [SignedVAAWithQuorum.GetVaa, invocations]
  · exact CHeap.read_CBytes w.heap p

/-- C1, at the scenario of the specification: payload `abc` gives one
invocation with buffer `abc` and length 3. -/
theorem quorum_attestation_delivered_once_witness :
    invocations ((receiving.step sampleEnv sampleConfig Sys.init.w
        (envelope abcEnvelope)).w.out.drop Sys.init.w.out.length) =
        [({ vaa := 0, vaa_len := 3 }, some abc)] ∧
      (receiving.step sampleEnv sampleConfig Sys.init.w (envelope abcEnvelope)).w.out =
        [] ++ [.invoke { vaa := 0, vaa_len := 3 } (some abc)] ∧
      (receiving.step sampleEnv sampleConfig Sys.init.w (envelope abcEnvelope)).w.heap.read 0 =
        some abc ∧
      (receiving.step sampleEnv sampleConfig Sys.init.w (envelope abcEnvelope)).g.pc = .Next :=
  quorum_attestation_delivered_once sampleEnv sampleConfig Sys.init.w receiving
    (envelope abcEnvelope) abc rfl rfl (by decide)

/-- C2: an envelope on which the decoder returns an error does not end the
run. The routine stays in the receive loop (state RUNNING) with its next
`sub.Next` call ahead, nothing is printed, no panic is raised, no run is
launched, the recorded start time is kept and every deferred call registered
before is still registered; when the message value the decoder left does not
carry the attestation variant, the world and the goroutine are unchanged. -/
theorem undecodable_envelope_continues (env : Env) (cfg : Config) (w : World)
    (g : Goroutine) (inp : Input) (e : String)
    (hpc : g.pc = .Next) (hret : inp.ret = .ok)
    (_herr : (env.Unmarshal inp.data).2 = some e) :
    (g.step env cfg w inp).g.pc = .Next ∧
      (g.step env cfg w inp).g.phase = some .RUNNING ∧
      (g.step env cfg w inp).spawn = false ∧
      (g.step env cfg w inp).g.panicking = g.panicking ∧
      (g.step env cfg w inp).w.startTime = w.startTime ∧
      (∀ s, Output.println s ∉ (g.step env cfg w inp).w.out.drop w.out.length) ∧
      g.defers <:+ (g.step env cfg w inp).g.defers ∧
      ((∀ inner, (env.Unmarshal inp.data).1.Message ≠ some (.SignedVaaWithQuorum inner)) →
        (g.step env cfg w inp).w = w ∧ (g.step env cfg w inp).g = g) := by
  have hs : g.step env cfg w inp = processEnvelope env w g inp.data := by
    simp [Goroutine.step, hpc, receive, hret]
  rw [hs]
  by_cases hq : ∃ inner, (env.Unmarshal inp.data).1.Message = some (.SignedVaaWithQuorum inner)
  · obtain ⟨inner, hq⟩ := hq
    rw [processEnvelope_quorum env w g inp.data inner hq]
    refine ⟨hpc, by simp [Goroutine.phase, hpc], rfl, rfl, rfl, ?_, ?_, ?_⟩
    · intro s; simp
    · exact List.suffix_cons _ _
    · intro hno; exact absurd hq (hno inner)
  · have hno : ∀ inner, (env.Unmarshal inp.data).1.Message ≠ some (.SignedVaaWithQuorum inner) :=
      fun inner h => hq ⟨inner, h⟩
    rw [processEnvelope_other env w g inp.data hno]
    refine ⟨hpc, by simp [Goroutine.phase, hpc], rfl, rfl, rfl, ?_, List.suffix_refl _, ?_⟩
    · intro s; simp
    · intro _; exact ⟨rfl, rfl⟩

/-- C2, at an envelope of one bad byte in the sample environment. -/
theorem undecodable_envelope_continues_witness :
    (receiving.step sampleEnv sampleConfig Sys.init.w (envelope [0xff])).g.pc = .Next ∧
      (receiving.step sampleEnv sampleConfig Sys.init.w (envelope [0xff])).g.phase =
        some .RUNNING ∧
      (receiving.step sampleEnv sampleConfig Sys.init.w (envelope [0xff])).spawn = false ∧
      (receiving.step sampleEnv sampleConfig Sys.init.w (envelope [0xff])).g.panicking =
        receiving.panicking ∧
      (receiving.step sampleEnv sampleConfig Sys.init.w (envelope [0xff])).w.startTime =
        Sys.init.w.startTime ∧
      (∀ s, Output.println s ∉
        (receiving.step sampleEnv sampleConfig Sys.init.w (envelope [0xff])).w.out.drop
          Sys.init.w.out.length) ∧
      receiving.defers <:+
        (receiving.step sampleEnv sampleConfig Sys.init.w (envelope [0xff])).g.defers ∧
      ((∀ inner, (sampleEnv.Unmarshal (envelope [0xff]).data).1.Message ≠
          some (.SignedVaaWithQuorum inner)) →
        (receiving.step sampleEnv sampleConfig Sys.init.w (envelope [0xff])).w = Sys.init.w ∧
        (receiving.step sampleEnv sampleConfig Sys.init.w (envelope [0xff])).g = receiving) :=
  undecodable_envelope_continues sampleEnv sampleConfig Sys.init.w receiving (envelope [0xff])
    "proto: cannot parse invalid wire-format data" rfl rfl (by decide)

/-- C3: the code at the failing input. The decoder returns an error on the
envelope and has left the attestation variant with payload `abc` in the
message value; the loop body does not read the error and invokes the callback
once with `abc`. -/
theorem undecodable_envelope_delivered :
    (sampleEnv.Unmarshal (abcEnvelope ++ [0xff])).2 =
        some "proto: cannot parse invalid wire-format data" ∧
      invocations (receiving.step sampleEnv sampleConfig Sys.init.w
        (envelope (abcEnvelope ++ [0xff]))).w.out = [({ vaa := 0, vaa_len := 3 }, some abc)] := by
  decide

/-- C7: an envelope whose message value does not carry the attestation
variant (an observation, another variant, or none) leaves the world and the
goroutine as they were: no callback invocation, no output, nothing deferred. -/
theorem other_variants_discarded (env : Env) (cfg : Config) (w : World)
    (g : Goroutine) (inp : Input)
    (hpc : g.pc = .Next) (hret : inp.ret = .ok)
    (hvar : ∀ inner, (env.Unmarshal inp.data).1.Message ≠ some (.SignedVaaWithQuorum inner)) :
    g.step env cfg w inp = { w := w, g := g, spawn := false } ∧
      invocations ((g.step env cfg w inp).w.out.drop w.out.length) = [] := by
  have hs : g.step env cfg w inp = processEnvelope env w g inp.data := by
    simp [Goroutine.step, hpc, receive, hret]
  rw [hs, processEnvelope_other env w g inp.data hvar]
  simp [invocations]

/-- C7, at an observation envelope in the sample environment. -/
theorem other_variants_discarded_witness :
    receiving.step sampleEnv sampleConfig Sys.init.w (envelope [0x12, 0x00]) =
        { w := Sys.init.w, g := receiving, spawn := false } ∧
      invocations ((receiving.step sampleEnv sampleConfig Sys.init.w
        (envelope [0x12, 0x00])).w.out.drop Sys.init.w.out.length) = [] :=
  other_variants_discarded sampleEnv sampleConfig Sys.init.w receiving (envelope [0x12, 0x00])
    rfl rfl (fun inner h => by
      have h2 : (sampleEnv.Unmarshal (envelope [0x12, 0x00]).data).1.Message =
          some (.SignedObservation []) := by decide
      rw [h2] at h
      cases h)

/-! ## Delivery buffers over a run -/

/-- Each delivered attestation adds a live buffer and none is released while
the loop runs. -/
theorem run_deliveries_heap (env : Env) (cfg : Config) (inputs : List Input) :
    ∀ (w : World) (g : Goroutine), g.pc = .Next →
      (∀ inp ∈ inputs, inp.ret = .ok ∧
        ∃ inner, (env.Unmarshal inp.data).1.Message = some (.SignedVaaWithQuorum inner)) →
      (Goroutine.run env cfg w g inputs).2.pc = .Next ∧
        (Goroutine.run env cfg w g inputs).1.heap.live.length =
          w.heap.live.length + inputs.length := by
  induction inputs with
  | nil => intro w g hpc _; exact ⟨hpc, rfl⟩
  | cons inp rest ih =>
    intro w g hpc hq
    obtain ⟨hret, inner, hm⟩ := hq inp (List.mem_cons_self _ _)
    have hs : g.step env cfg w inp = processEnvelope env w g inp.data := by
      simp [Goroutine.step, hpc, receive, hret]
    have hrest := fun i hi => hq i (List.mem_cons_of_mem _ hi)
    simp only [Goroutine.run, hs, processEnvelope_quorum env w g inp.data inner hm]
    obtain ⟨h1, h2⟩ := ih _ _ (show ({ g with defers := Deferred.free w.heap.next :: g.defers } :
      Goroutine).pc = .Next from hpc) hrest
    refine ⟨h1, ?_⟩
    rw [h2]
    simp [CHeap.CBytes]
    omega

/-- C8: the code at the failing input. After one delivered attestation the
receive loop is at its next `sub.Next` with one delivery buffer allocated and
not released, after two with two; the releases are on the stack of deferred
calls and nothing has been released. -/
theorem delivery_buffers_accumulate :
    (Goroutine.run sampleEnv sampleConfig Sys.init.w receiving
        [envelope abcEnvelope]).2.pc = .Next ∧
      (Goroutine.run sampleEnv sampleConfig Sys.init.w receiving
        [envelope abcEnvelope]).1.heap.live = [(0, abc)] ∧
      (Goroutine.run sampleEnv sampleConfig Sys.init.w receiving
        [envelope abcEnvelope, envelope abcEnvelope]).2.pc = .Next ∧
      (Goroutine.run sampleEnv sampleConfig Sys.init.w receiving
        [envelope abcEnvelope, envelope abcEnvelope]).1.heap.live = [(1, abc), (0, abc)] ∧
      (Goroutine.run sampleEnv sampleConfig Sys.init.w receiving
        [envelope abcEnvelope, envelope abcEnvelope]).2.defers =
          [.free 1, .free 0, .subCancel, .thClose, .hClose, .recoverRerun] := by
  decide

/-! ## Bootstrap addresses -/

theorem bootstrapStep_eq (env : Env) (hID : String) (acc : List AddrInfo) (a : String) :
    bootstrapStep env hID acc a = acc ++ (seedEntry env hID a).toList := by
  cases h1 : env.NewMultiaddr a with
  | error e => simp [bootstrapStep, seedEntry, h1]
  | ok ma =>
    cases h2 : env.AddrInfoFromP2pAddr ma with
    | error e => simp [bootstrapStep, seedEntry, h1, h2]
    | ok pi =>
      by_cases hself : pi.ID = hID <;> simp [bootstrapStep, seedEntry, h1, h2, hself]

theorem foldl_bootstrapStep (env : Env) (hID : String) (addrs : List String) :
    ∀ acc : List AddrInfo,
      addrs.foldl (bootstrapStep env hID) acc = acc ++ addrs.filterMap (seedEntry env hID) := by
  induction addrs with
  | nil => intro acc; simp
  | cons a rest ih =>
    intro acc
    rw [List.foldl_cons, ih, bootstrapStep_eq, List.filterMap_cons]
    cases seedEntry env hID a <;> simp

theorem seedEntry_eq_some (env : Env) (hID : String) (addr : String) (pi : AddrInfo) :
    seedEntry env hID addr = some pi ↔
      ∃ ma, env.NewMultiaddr addr = .ok ma ∧ env.AddrInfoFromP2pAddr ma = .ok pi ∧
        pi.ID ≠ hID := by
  cases h1 : env.NewMultiaddr addr with
  | error e => simp [seedEntry, h1]
  | ok ma =>
    cases h2 : env.AddrInfoFromP2pAddr ma with
    | error e => simp [seedEntry, h1, h2]
    | ok pi' =>
      by_cases hself : pi'.ID = hID
      · simp only [seedEntry, h1, h2, hself, if_true]
        constructor
        · intro h; cases h
        · rintro ⟨ma', hma, h3, h4⟩
          cases hma
          rw [h2] at h3
          cases h3
          exact absurd hself h4
      · simp only [seedEntry, h1, h2, hself, if_false]
        constructor
        · intro h
          cases h
          exact ⟨ma, rfl, h2, hself⟩
        · rintro ⟨ma', hma, h3, _⟩
          cases hma
          rw [h2] at h3
          cases h3
          rfl

/-- C6: the list handed to `dht.BootstrapPeers` is the list of the
comma-separated entries that parse, resolve and do not name this host, each
resolved, in the order of the configuration string; an element is in the list
exactly when such an entry gives it; and when the parser rejects the empty
entry, the empty string gives the empty list. -/
theorem routing_seeds_exact (env : Env) (hID : String) (bootstrap_addrs : String) :
    routingSeeds env hID bootstrap_addrs =
        (stringsSplit bootstrap_addrs).filterMap (seedEntry env hID) ∧
      (∀ pi, pi ∈ routingSeeds env hID bootstrap_addrs ↔
        ∃ addr ∈ stringsSplit bootstrap_addrs, ∃ ma, env.NewMultiaddr addr = .ok ma ∧
          env.AddrInfoFromP2pAddr ma = .ok pi ∧ pi.ID ≠ hID) ∧
      ((∃ e, env.NewMultiaddr "" = .error e) → routingSeeds env hID "" = []) := by
  have key : ∀ s, routingSeeds env hID s = (stringsSplit s).filterMap (seedEntry env hID) := by
    intro s
    simp [routingSeeds, bootstrappers, Config.ofStrings, foldl_bootstrapStep]
  refine ⟨key _, ?_, ?_⟩
  · intro pi
    rw [key, List.mem_filterMap]
    constructor
    · rintro ⟨addr, hmem, hsome⟩
      exact ⟨addr, hmem, (seedEntry_eq_some env hID addr pi).1 hsome⟩
    · rintro ⟨addr, hmem, hex⟩
      exact ⟨addr, hmem, (seedEntry_eq_some env hID addr pi).2 hex⟩
  · rintro ⟨e, he⟩
    rw [key]
    have hsplit : stringsSplit "" = [""] := by decide
    rw [hsplit]
    simp [seedEntry, he]

/-- C6, in the sample environment: the parser rejects the empty entry and the
empty string gives no seed. -/
theorem routing_seeds_exact_witness :
    (∃ e, sampleEnv.NewMultiaddr "" = .error e) ∧ routingSeeds sampleEnv "me" "" = [] :=
  ⟨⟨_, rfl⟩, (routing_seeds_exact sampleEnv "me" "").2.2 ⟨_, rfl⟩⟩

/-! ## Listen addresses -/

theorem ListenAddrStrings_error (env : Env) (addrs : List String)
    (h : ∃ a ∈ addrs, ∃ e, env.NewMultiaddr a = .error e) :
    ∃ e, ListenAddrStrings env addrs = .error e := by
  induction addrs with
  | nil => obtain ⟨a, ha, _⟩ := h; cases ha
  | cons s rest ih =>
    unfold ListenAddrStrings
    cases hs : env.NewMultiaddr s with
    | error e => exact ⟨e, rfl⟩
    | ok ma =>
      have hrest : ∃ a ∈ rest, ∃ e, env.NewMultiaddr a = .error e := by
        obtain ⟨a, ha, e, he⟩ := h
        rcases List.mem_cons.1 ha with rfl | ha
        · rw [hs] at he; cases he
        · exact ⟨a, ha, e, he⟩
      obtain ⟨e, he⟩ := ih hrest
      exact ⟨e, by simp [he]⟩

/-- C10, as stated, fails: with the empty listen-address string the single
entry is the empty string, the parser rejects it, and host construction fails
although everything else in the construction succeeds; the routine prints the
error and returns into its deferred calls. -/
theorem invalid_listen_entry_fails_host :
    emptyListenConfig.listenAddrs = [""] ∧
      (∃ e, sampleEnv.NewMultiaddr "" = .error e) ∧
      libp2pNew sampleEnv emptyListenConfig.listenAddrs .ok = .err "failed to parse multiaddr" ∧
      (constructing.step sampleEnv emptyListenConfig Sys.init.w (clock 0)).g.pc = .deferred ∧
      (constructing.step sampleEnv emptyListenConfig Sys.init.w (clock 0)).w.out =
        [.println "Failed to create libp2p host: failed to parse multiaddr"] :=
  ⟨by decide, ⟨_, rfl⟩, by decide, by decide, by decide⟩

/-- C10, amended: the listen entries go to host construction unfiltered, and
an entry that does not parse is not skipped. When some entry does not parse,
host construction fails whatever the rest of the construction would do: the
routine prints "Failed to create libp2p host", defers no `h.Close` and
returns into its deferred calls, so the current run fails. -/
theorem listen_entries_decide_host (env : Env) (cfg : Config) (w : World)
    (g : Goroutine) (inp : Input) (hpc : g.pc = .New)
    (hbad : ∃ a ∈ cfg.listenAddrs, ∃ e, env.NewMultiaddr a = .error e) :
    ∃ e, libp2pNew env cfg.listenAddrs inp.ret = .err e ∧
      (g.step env cfg w inp).w.out =
        w.out ++ [.println ("Failed to create libp2p host: " ++ e)] ∧
      (g.step env cfg w inp).g.pc = .deferred ∧
      (g.step env cfg w inp).g.phase ≠ some .RUNNING ∧
      (g.step env cfg w inp).g.defers = g.defers ∧
      (g.step env cfg w inp).spawn = false := by
  obtain ⟨e, he⟩ := ListenAddrStrings_error env cfg.listenAddrs hbad
  refine ⟨e, by simp [libp2pNew, he], by simp [Goroutine.step, hpc, libp2pNew, he, construct],
    by simp [Goroutine.step, hpc, libp2pNew, he, construct], ?_,
    by simp [Goroutine.step, hpc, libp2pNew, he, construct],
    by simp [Goroutine.step, hpc, libp2pNew, he, construct]⟩
  have hs : (g.step env cfg w inp).g.pc = .deferred := by
    simp [Goroutine.step, hpc, libp2pNew, he, construct]
  simp only [Goroutine.phase, hs]
  split <;> simp

/-- C10 amended, in the sample environment with the empty listen-address
string. -/
theorem listen_entries_decide_host_witness :
    (∃ a ∈ emptyListenConfig.listenAddrs, ∃ e, sampleEnv.NewMultiaddr a = .error e) ∧
      ∃ e, libp2pNew sampleEnv emptyListenConfig.listenAddrs (clock 0).ret = .err e ∧
        (constructing.step sampleEnv emptyListenConfig Sys.init.w (clock 0)).w.out =
          Sys.init.w.out ++ [.println ("Failed to create libp2p host: " ++ e)] ∧
        (constructing.step sampleEnv emptyListenConfig Sys.init.w (clock 0)).g.pc = .deferred ∧
        (constructing.step sampleEnv emptyListenConfig Sys.init.w (clock 0)).g.phase ≠
          some .RUNNING ∧
        (constructing.step sampleEnv emptyListenConfig Sys.init.w (clock 0)).g.defers =
          constructing.defers ∧
        (constructing.step sampleEnv emptyListenConfig Sys.init.w (clock 0)).spawn = false :=
  ⟨⟨"", by decide, _, rfl⟩,
    listen_entries_decide_host sampleEnv emptyListenConfig Sys.init.w constructing (clock 0)
      rfl ⟨"", by decide, _, rfl⟩⟩

/-! ## The backoff of `recoverRerun` -/

theorem wrapInt64_of_range (x : Int) (h1 : -2 ^ 63 ≤ x) (h2 : x < 2 ^ 63) : wrapInt64 x = x := by
  unfold wrapInt64
  have : (x + 2 ^ 63) % 2 ^ 64 = x + 2 ^ 63 := Int.emod_eq_of_lt (by omega) (by omega)
  omega

theorem construct_startTime (what : String) (r : Ret) (pc : Pc) (push : List Deferred)
    (w : World) (g : Goroutine) (hpc : pc ≠ .entry) :
    (construct what r pc push w g).w.startTime = w.startTime ∧
      (construct what r pc push w g).g.pc ≠ .entry := by
  cases r <;> simp [construct, hpc]

theorem processEnvelope_startTime (env : Env) (w : World) (g : Goroutine) (data : Bytes) :
    (processEnvelope env w g data).w.startTime = w.startTime ∧
      (processEnvelope env w g data).g.pc = g.pc := by
  by_cases hq : ∃ inner, (env.Unmarshal data).1.Message = some (.SignedVaaWithQuorum inner)
  · obtain ⟨inner, hq⟩ := hq
    rw [processEnvelope_quorum env w g data inner hq]
    exact ⟨rfl, rfl⟩
  · rw [processEnvelope_other env w g data (fun inner h => hq ⟨inner, h⟩)]
    exact ⟨rfl, rfl⟩

theorem runDeferred_startTime (w : World) (g : Goroutine) (inp : Input)
    (hpc : g.pc = .deferred) :
    (runDeferred w g inp).w.startTime = w.startTime ∧ (runDeferred w g inp).g.pc ≠ .entry := by
  rcases hd : g.defers with _ | ⟨d, ds⟩
  · cases hp : g.panicking <;> simp [runDeferred, hd, hp]
  · cases d with
    | recoverRerun => simp [runDeferred, hd, recoverRerun, hpc]
    | free p => simp [runDeferred, hd, hpc]
    | hClose => cases hr : inp.ret <;> simp [runDeferred, hd, hr, hpc]
    | thClose => cases hr : inp.ret <;> simp [runDeferred, hd, hr, hpc]
    | subCancel => cases hr : inp.ret <;> simp [runDeferred, hd, hr, hpc]

theorem step_startTime (env : Env) (cfg : Config) (w : World) (g : Goroutine) (inp : Input)
    (hpc : g.pc ≠ .entry) :
    (g.step env cfg w inp).w.startTime = w.startTime ∧ (g.step env cfg w inp).g.pc ≠ .entry := by
  cases h : g.pc with
  | entry => exact absurd h hpc
  | GenerateKeyPair => simpa [Goroutine.step, h] using construct_startTime _ _ _ _ w g (by decide)
  | NewConnManager => simpa [Goroutine.step, h] using construct_startTime _ _ _ _ w g (by decide)
  | New => simpa [Goroutine.step, h] using construct_startTime _ _ _ _ w g (by decide)
  | NewGossipSub => simpa [Goroutine.step, h] using construct_startTime _ _ _ _ w g (by decide)
  | Join => simpa [Goroutine.step, h] using construct_startTime _ _ _ _ w g (by decide)
  | Subscribe => simpa [Goroutine.step, h] using construct_startTime _ _ _ _ w g (by decide)
  | Next =>
    simp only [Goroutine.step, h, receive]
    cases hr : inp.ret with
    | ok =>
      have := processEnvelope_startTime env w g inp.data
      simp [this.1, this.2, h]
    | err e => simp
    | panicked v => simp
  | deferred => simpa [Goroutine.step, h] using runDeferred_startTime w g inp h
  | exited => simp [Goroutine.step, h]
  | crashed => simp [Goroutine.step, h]

theorem run_startTime (env : Env) (cfg : Config) (inputs : List Input) :
    ∀ (w : World) (g : Goroutine), g.pc ≠ .entry →
      (Goroutine.run env cfg w g inputs).1.startTime = w.startTime := by
  induction inputs with
  | nil => intro w g _; rfl
  | cons inp rest ih =>
    intro w g hpc
    obtain ⟨h1, h2⟩ := step_startTime env cfg w g inp hpc
    simp only [Goroutine.run]
    rw [ih _ _ h2, h1]

theorem recoverRerun_out (w : World) (p : Option String) (now : Int)
    (h1 : -2 ^ 63 ≤ now - w.startTime) (h2 : now - w.startTime < 2 ^ 63) :
    (recoverRerun w p now).out =
      w.out ++ panicReport p ++
        (if now - w.startTime < 30 * Second then [.sleep (1 * Second)] else []) ++
        [.goRoutine] := by
  unfold recoverRerun
  rw [wrapInt64_of_range _ h1 h2]
  cases p <;> by_cases hlt : now - w.startTime < 30 * Second <;> simp [panicReport, hlt]

/-- C4: a run that recorded start time `s` on entry and, after any steps,
reaches `recoverRerun` at clock reading `t`, with `t - s` within the 64-bit
signed range: `recoverRerun` sleeps 1 second and then launches the routine
when `t - s` is less than 30 seconds, and launches it with no sleep when
`t - s` is at least 30 seconds. -/
theorem backoff_pause (env : Env) (cfg : Config) (w : World) (first : Input)
    (mid : List Input) (last : Input)
    (hlo : -2 ^ 63 ≤ last.now - first.now) (hhi : last.now - first.now < 2 ^ 63)
    (hpc : (Goroutine.run env cfg w Goroutine.fresh (first :: mid)).2.pc = .deferred)
    (hds : (Goroutine.run env cfg w Goroutine.fresh (first :: mid)).2.defers = [.recoverRerun]) :
    (Goroutine.run env cfg w Goroutine.fresh (first :: mid)).1.startTime = first.now ∧
      ((Goroutine.run env cfg w Goroutine.fresh (first :: mid)).2.step env cfg
        (Goroutine.run env cfg w Goroutine.fresh (first :: mid)).1 last).spawn = true ∧
      (last.now - first.now < 30 * Second →
        ((Goroutine.run env cfg w Goroutine.fresh (first :: mid)).2.step env cfg
          (Goroutine.run env cfg w Goroutine.fresh (first :: mid)).1 last).w.out =
        (Goroutine.run env cfg w Goroutine.fresh (first :: mid)).1.out ++
          panicReport (Goroutine.run env cfg w Goroutine.fresh (first :: mid)).2.panicking ++
          [.sleep (1 * Second), .goRoutine]) ∧
      (30 * Second ≤ last.now - first.now →
        ((Goroutine.run env cfg w Goroutine.fresh (first :: mid)).2.step env cfg
          (Goroutine.run env cfg w Goroutine.fresh (first :: mid)).1 last).w.out =
        (Goroutine.run env cfg w Goroutine.fresh (first :: mid)).1.out ++
          panicReport (Goroutine.run env cfg w Goroutine.fresh (first :: mid)).2.panicking ++
          [.goRoutine]) := by
  have hst : (Goroutine.run env cfg w Goroutine.fresh (first :: mid)).1.startTime = first.now := by
    simp only [Goroutine.run]
    rw [run_startTime env cfg mid _ _ (by simp [Goroutine.step, Goroutine.fresh])]
    simp [Goroutine.step, Goroutine.fresh]
  generalize Goroutine.run env cfg w Goroutine.fresh (first :: mid) = r at hpc hds hst ⊢
  obtain ⟨w', g'⟩ := r
  simp only at hpc hds hst ⊢
  have hstep : g'.step env cfg w' last =
      { w := recoverRerun w' g'.panicking last.now
        g := { g' with defers := [], panicking := none }, spawn := true } := by
    simp [Goroutine.step, hpc, runDeferred, hds]
  rw [hstep]
  have hout := recoverRerun_out w' g'.panicking last.now (by rw [hst]; exact hlo)
    (by rw [hst]; exact hhi)
  rw [hst] at hout
  refine ⟨hst, rfl, ?_, ?_⟩
  · intro hlt
    simp only [hout, hlt, if_true]
    simp
  · intro hge
    have : ¬ last.now - first.now < 30 * Second := not_lt.mpr hge
    simp only [hout, this, if_false]
    simp

/-- C4, at a run whose key generation fails: started at clock 0, it reaches
`recoverRerun` at 29 seconds. -/
theorem backoff_pause_witness :
    (Goroutine.run sampleEnv sampleConfig Sys.init.w Goroutine.fresh
        [clock 0, failing 0 "no entropy"]).2.pc = .deferred ∧
      (Goroutine.run sampleEnv sampleConfig Sys.init.w Goroutine.fresh
        [clock 0, failing 0 "no entropy"]).2.defers = [.recoverRerun] ∧
      (Goroutine.run sampleEnv sampleConfig Sys.init.w Goroutine.fresh
        [clock 0, failing 0 "no entropy"]).1.startTime = 0 ∧
      ((Goroutine.run sampleEnv sampleConfig Sys.init.w Goroutine.fresh
        [clock 0, failing 0 "no entropy"]).2.step sampleEnv sampleConfig
        (Goroutine.run sampleEnv sampleConfig Sys.init.w Goroutine.fresh
          [clock 0, failing 0 "no entropy"]).1 (clock (29 * Second))).w.out =
        [.println "Failed to generate key pair: no entropy", .sleep (1 * Second), .goRoutine] := by
  have h := backoff_pause sampleEnv sampleConfig Sys.init.w (clock 0)
    [failing 0 "no entropy"] (clock (29 * Second)) (by decide) (by decide) (by decide)
    (by decide)
  exact ⟨by decide, by decide, h.1, by rw [h.2.2.1 (by decide)]; decide⟩

/-! ## The deferred calls of a run -/

theorem construct_active (what : String) (r : Ret) (pc : Pc) (push : List Deferred)
    (w : World) (g : Goroutine) (hb : g.bottom)
    (h1 : pc ≠ .entry) (h2 : pc ≠ .exited) (h3 : pc ≠ .crashed)
    (hpush : .recoverRerun ∉ push) :
    (construct what r pc push w g).spawn = false ∧ (construct what r pc push w g).g.active := by
  obtain ⟨ds, hds, hnot⟩ := hb
  cases r with
  | ok =>
    refine ⟨rfl, Or.inr ⟨h1, h2, h3, push ++ ds, ?_, ?_⟩⟩
    · simp [construct, hds]
    · simp [hpush, hnot]
  | err e => exact ⟨rfl, Or.inr ⟨by simp [construct], by simp [construct], by simp [construct],
      ds, hds, hnot⟩⟩
  | panicked v => exact ⟨rfl, Or.inr ⟨by simp [construct], by simp [construct],
      by simp [construct], ds, hds, hnot⟩⟩

theorem receive_active (env : Env) (w : World) (g : Goroutine) (inp : Input)
    (hpc : g.pc = .Next) (hb : g.bottom) :
    (receive env w g inp).spawn = false ∧ (receive env w g inp).g.active := by
  obtain ⟨ds, hds, hnot⟩ := hb
  cases hr : inp.ret with
  | ok =>
    simp only [receive, hr]
    by_cases hq : ∃ inner, (env.Unmarshal inp.data).1.Message = some (.SignedVaaWithQuorum inner)
    · obtain ⟨inner, hq⟩ := hq
      rw [processEnvelope_quorum env w g inp.data inner hq]
      refine ⟨rfl, Or.inr ⟨by simp [hpc], by simp [hpc], by simp [hpc],
        .free w.heap.next :: ds, by simp [hds], by simp [hnot]⟩⟩
    · rw [processEnvelope_other env w g inp.data (fun inner h => hq ⟨inner, h⟩)]
      exact ⟨rfl, Or.inr ⟨by simp [hpc], by simp [hpc], by simp [hpc], ds, hds, hnot⟩⟩
  | err e =>
    simp only [receive, hr]
    exact ⟨trivial, Or.inr ⟨by simp, by simp, by simp, ds, hds, hnot⟩⟩
  | panicked v =>
    simp only [receive, hr]
    exact ⟨trivial, Or.inr ⟨by simp, by simp, by simp, ds, hds, hnot⟩⟩

/-- Popping a deferred call other than `recoverRerun`. -/
theorem runDeferred_pop (w : World) (g : Goroutine) (inp : Input) (d : Deferred)
    (rest : List Deferred) (hd : g.defers = d :: rest) (hne : d ≠ .recoverRerun) :
    (runDeferred w g inp).spawn = false ∧ (runDeferred w g inp).g.pc = g.pc ∧
      (runDeferred w g inp).g.defers = rest := by
  cases d with
  | recoverRerun => exact absurd rfl hne
  | free p => simp [runDeferred, hd]
  | hClose => cases hr : inp.ret <;> simp [runDeferred, hd, hr]
  | thClose => cases hr : inp.ret <;> simp [runDeferred, hd, hr]
  | subCancel => cases hr : inp.ret <;> simp [runDeferred, hd, hr]

/-- Running `recoverRerun` as the last deferred call. -/
theorem runDeferred_last (w : World) (g : Goroutine) (inp : Input)
    (hd : g.defers = [.recoverRerun]) :
    runDeferred w g inp =
      { w := recoverRerun w g.panicking inp.now
        g := { g with defers := [], panicking := none }, spawn := true } := by
  simp [runDeferred, hd]

theorem active_step (env : Env) (cfg : Config) (w : World) (g : Goroutine) (inp : Input)
    (ha : g.active) :
    ((g.step env cfg w inp).spawn = false ∧ (g.step env cfg w inp).g.active) ∨
      ((g.step env cfg w inp).spawn = true ∧ (g.step env cfg w inp).g.finished ∧
        g.pc = .deferred ∧ g.defers = [.recoverRerun]) := by
  rcases ha with ⟨hpc, hds⟩ | ⟨h1, h2, h3, hb⟩
  · left
    refine ⟨by simp [Goroutine.step, hpc], Or.inr ⟨?_, ?_, ?_, [], ?_, ?_⟩⟩ <;>
      simp [Goroutine.step, hpc, hds]
  · cases h : g.pc with
    | entry => exact absurd h h1
    | exited => exact absurd h h2
    | crashed => exact absurd h h3
    | GenerateKeyPair =>
      left; simpa [Goroutine.step, h] using
        construct_active _ inp.ret .NewConnManager [] w g hb (by decide) (by decide) (by decide)
          (by simp)
    | NewConnManager =>
      left; simpa [Goroutine.step, h] using
        construct_active _ inp.ret .New [] w g hb (by decide) (by decide) (by decide) (by simp)
    | New =>
      left; simpa [Goroutine.step, h] using
        construct_active _ (libp2pNew env cfg.listenAddrs inp.ret) .NewGossipSub [.hClose] w g hb
          (by decide) (by decide) (by decide) (by simp)
    | NewGossipSub =>
      left; simpa [Goroutine.step, h] using
        construct_active _ inp.ret .Join [] w g hb (by decide) (by decide) (by decide) (by simp)
    | Join =>
      left; simpa [Goroutine.step, h] using
        construct_active _ inp.ret .Subscribe [.thClose] w g hb (by decide) (by decide)
          (by decide) (by simp)
    | Subscribe =>
      left; simpa [Goroutine.step, h] using
        construct_active _ inp.ret .Next [.subCancel] w g hb (by decide) (by decide)
          (by decide) (by simp)
    | Next =>
      left; simpa [Goroutine.step, h] using receive_active env w g inp h hb
    | deferred =>
      obtain ⟨ds, hds, hnot⟩ := hb
      have hs : g.step env cfg w inp = runDeferred w g inp := by simp [Goroutine.step, h]
      rw [hs]
      cases ds with
      | nil =>
        right
        have hd : g.defers = [.recoverRerun] := by simpa using hds
        rw [runDeferred_last w g inp hd]
        exact ⟨rfl, ⟨rfl, Or.inr ⟨h, rfl⟩⟩, rfl, hd⟩
      | cons d rest =>
        left
        have hd : g.defers = d :: (rest ++ [.recoverRerun]) := by simpa using hds
        have hne : d ≠ .recoverRerun := fun he => hnot (by simp [he])
        obtain ⟨p1, p2, p3⟩ := runDeferred_pop w g inp d _ hd hne
        refine ⟨p1, Or.inr ⟨by rw [p2, h]; decide, by rw [p2, h]; decide, by rw [p2, h]; decide,
          rest, p3, fun hm => hnot (List.mem_cons_of_mem _ hm)⟩⟩

theorem finished_step (env : Env) (cfg : Config) (w : World) (g : Goroutine) (inp : Input)
    (hf : g.finished) :
    (g.step env cfg w inp).spawn = false ∧ (g.step env cfg w inp).g.finished ∧
      (g.step env cfg w inp).w = w := by
  obtain ⟨hd, hpc | ⟨hpc, hp⟩⟩ := hf
  · simp [Goroutine.step, hpc, Goroutine.finished, hd]
  · simp [Goroutine.step, hpc, runDeferred, hd, hp, Goroutine.finished]

theorem active_phase (g : Goroutine) (ha : g.active) : g.phase ≠ none := by
  rcases ha with ⟨hpc, _⟩ | ⟨h1, h2, h3, ds, hds, _⟩
  · simp [Goroutine.phase, hpc]
  · cases h : g.pc with
    | entry => exact absurd h h1
    | exited => exact absurd h h2
    | crashed => exact absurd h h3
    | deferred =>
      cases ds with
      | nil => simp [Goroutine.phase, h, hds]
      | cons d rest =>
        simp only [Goroutine.phase, h, hds]
        cases rest <;> cases d <;> simp
    | _ => simp [Goroutine.phase, h]

theorem finished_phase (g : Goroutine) (hf : g.finished) :
    g.phase = none ∧ g.pc ≠ .crashed := by
  obtain ⟨hd, hpc | ⟨hpc, _⟩⟩ := hf <;> simp [Goroutine.phase, hpc, hd]


/-! ## The pool of goroutines -/

theorem Sys.step_last (env : Env) (cfg : Config) (s : Sys) (pre : List Goroutine)
    (g : Goroutine) (h : s.gs = pre ++ [g]) (inp : Input) :
    s.step env cfg pre.length inp =
      { w := (g.step env cfg s.w inp).w
        gs := pre ++ [(g.step env cfg s.w inp).g] ++
          (if (g.step env cfg s.w inp).spawn then [Goroutine.fresh] else []) } := by
  simp [Sys.step, h]

theorem Sys.step_pre (env : Env) (cfg : Config) (s : Sys) (pre : List Goroutine)
    (g : Goroutine) (h : s.gs = pre ++ [g]) (i : Nat) (hi : i < pre.length) (inp : Input) :
    s.step env cfg i inp =
      { w := ((pre.get ⟨i, hi⟩).step env cfg s.w inp).w
        gs := pre.set i ((pre.get ⟨i, hi⟩).step env cfg s.w inp).g ++ [g] ++
          (if ((pre.get ⟨i, hi⟩).step env cfg s.w inp).spawn then [Goroutine.fresh] else []) } := by
  have hget : s.gs[i]? = some (pre.get ⟨i, hi⟩) := by
    rw [h, List.getElem?_append_left hi]
    simp
  simp only [Sys.step, hget]
  simp [h, List.set_append_left _ _ hi]

theorem Sys.step_beyond (env : Env) (cfg : Config) (s : Sys) (i : Nat)
    (hi : s.gs.length ≤ i) (inp : Input) : s.step env cfg i inp = s := by
  simp [Sys.step, List.getElem?_eq_none hi]

/-- A step of the pool keeps the invariant; it adds a goroutine only when the
running goroutine executes `recoverRerun` with nothing else deferred. -/
theorem Sys.step_cases (env : Env) (cfg : Config) (s : Sys) (pre : List Goroutine)
    (g : Goroutine) (h : s.gs = pre ++ [g]) (hpre : ∀ x ∈ pre, x.finished) (ha : g.active)
    (i : Nat) (inp : Input) :
    ((s.step env cfg i inp).gs.length = s.gs.length ∧ (s.step env cfg i inp).Inv) ∨
      (i = pre.length ∧ g.pc = .deferred ∧ g.defers = [.recoverRerun] ∧
        (s.step env cfg i inp).gs =
          pre ++ [{ g with defers := [], panicking := none }, Goroutine.fresh] ∧
        (s.step env cfg i inp).w = recoverRerun s.w g.panicking inp.now) := by
  rcases Nat.lt_trichotomy i pre.length with hi | hi | hi
  · left
    obtain ⟨f1, f2, _⟩ := finished_step env cfg s.w (pre.get ⟨i, hi⟩) inp
      (hpre _ (List.get_mem _ _ _))
    rw [Sys.step_pre env cfg s pre g h i hi inp, f1]
    refine ⟨by simp [h], pre.set i ((pre.get ⟨i, hi⟩).step env cfg s.w inp).g, g, by simp, ?_, ha⟩
    intro x hx
    rcases List.mem_or_eq_of_mem_set hx with hx | hx
    · exact hpre x hx
    · rw [hx]; exact f2
  · subst hi
    rw [Sys.step_last env cfg s pre g h inp]
    rcases active_step env cfg s.w g inp ha with ⟨a1, a2⟩ | ⟨a1, a2, a3, a4⟩
    · left
      rw [a1]
      exact ⟨by simp [h], pre, _, by simp, hpre, a2⟩
    · right
      have hs : g.step env cfg s.w inp = runDeferred s.w g inp := by simp [Goroutine.step, a3]
      rw [hs, runDeferred_last s.w g inp a4]
      exact ⟨rfl, a3, a4, by simp, rfl⟩
  · left
    rw [Sys.step_beyond env cfg s i (by rw [h]; simp; omega) inp]
    exact ⟨rfl, pre, g, h, hpre, ha⟩

theorem Sys.inv_step (env : Env) (cfg : Config) (s : Sys) (hinv : s.Inv) (i : Nat)
    (inp : Input) : (s.step env cfg i inp).Inv := by
  obtain ⟨pre, g, h, hpre, ha⟩ := hinv
  rcases Sys.step_cases env cfg s pre g h hpre ha i inp with ⟨_, hi⟩ | ⟨_, h3, h4, h5, _⟩
  · exact hi
  · refine ⟨pre ++ [{ g with defers := [], panicking := none }], Goroutine.fresh, by simp [h5],
      ?_, Or.inl ⟨rfl, rfl⟩⟩
    intro x hx
    rcases List.mem_append.1 hx with hx | hx
    · exact hpre x hx
    · rw [List.mem_singleton.1 hx]
      exact ⟨rfl, Or.inr ⟨h3, rfl⟩⟩

theorem reachable_inv (env : Env) (cfg : Config) (s : Sys) (h : Reachable env cfg s) :
    s.Inv := by
  induction h with
  | init => exact ⟨[], Goroutine.fresh, rfl, by simp, Or.inl ⟨rfl, rfl⟩⟩
  | step s i inp _ ih => exact Sys.inv_step env cfg s ih i inp

/-- Under the invariant the goroutine in a supervisor state is the last. -/
theorem Sys.Inv.index_of_phase (s : Sys) (pre : List Goroutine) (g : Goroutine)
    (h : s.gs = pre ++ [g]) (hpre : ∀ x ∈ pre, x.finished) (i : Nat) (gi : Goroutine)
    (hi : s.gs[i]? = some gi) (hph : gi.phase ≠ none) : i = pre.length ∧ gi = g := by
  rw [h] at hi
  rcases Nat.lt_trichotomy i pre.length with hlt | heq | hgt
  · rw [List.getElem?_append_left hlt] at hi
    have hmem : gi ∈ pre := List.getElem?_mem hi
    exact absurd (finished_phase gi (hpre gi hmem)).1 hph
  · subst heq
    rw [List.getElem?_concat_length] at hi
    exact ⟨rfl, (Option.some.inj hi).symm⟩
  · rw [List.getElem?_eq_none (by simp; omega)] at hi
    cases hi

theorem recoverRerun_getLast (w : World) (p : Option String) (now : Int) :
    (recoverRerun w p now).out.getLast? = some .goRoutine := by
  simp [recoverRerun]

/-- From a goroutine that runs its deferred calls, one step for each of them
ends with `recoverRerun` launching a goroutine at the start of the routine. -/
theorem Sys.unwind (env : Env) (cfg : Config) (ds : List Deferred) :
    ∀ (s : Sys) (pre : List Goroutine) (g : Goroutine), s.gs = pre ++ [g] →
      g.pc = .deferred → g.defers = ds ++ [.recoverRerun] → .recoverRerun ∉ ds →
      ∀ inputs : List Input, inputs.length = ds.length + 1 →
        (∃ g', (s.steps env cfg pre.length inputs).gs = pre ++ [g', Goroutine.fresh] ∧
          g'.finished) ∧
        (s.steps env cfg pre.length inputs).w.out.getLast? = some .goRoutine := by
  induction ds with
  | nil =>
    intro s pre g h hpc hd _ inputs hlen
    match inputs, hlen with
    | [inp], _ =>
      have hd' : g.defers = [.recoverRerun] := by simpa using hd
      have hs : g.step env cfg s.w inp = runDeferred s.w g inp := by simp [Goroutine.step, hpc]
      simp only [Sys.steps, List.foldl_cons, List.foldl_nil]
      rw [Sys.step_last env cfg s pre g h inp, hs, runDeferred_last s.w g inp hd']
      exact ⟨⟨{ g with defers := [], panicking := none }, by simp, rfl, Or.inr ⟨hpc, rfl⟩⟩,
        recoverRerun_getLast _ _ _⟩
  | cons d rest ih =>
    intro s pre g h hpc hd hnot inputs hlen
    match inputs, hlen with
    | inp :: inputs', hlen' =>
      have hd' : g.defers = d :: (rest ++ [.recoverRerun]) := by simpa using hd
      have hne : d ≠ .recoverRerun := fun he => hnot (by simp [he])
      have hs : g.step env cfg s.w inp = runDeferred s.w g inp := by simp [Goroutine.step, hpc]
      obtain ⟨p1, p2, p3⟩ := runDeferred_pop s.w g inp d _ hd' hne
      have hstep := Sys.step_last env cfg s pre g h inp
      rw [hs, p1] at hstep
      simp only [Sys.steps, List.foldl_cons]
      have := ih (s.step env cfg pre.length inp) pre (runDeferred s.w g inp).g
        (by rw [hstep]; simp) (by rw [p2, hpc]) p3
        (fun hm => hnot (List.mem_cons_of_mem _ hm)) inputs' (by simpa using hlen')
      exact this

theorem Reachable.steps (env : Env) (cfg : Config) (i : Nat) (inputs : List Input) :
    ∀ s : Sys, Reachable env cfg s → Reachable env cfg (s.steps env cfg i inputs) := by
  induction inputs with
  | nil => intro s h; exact h
  | cons inp rest ih => intro s h; exact ih _ (Reachable.step s i inp h)

theorem failureUnwinds_holds (env : Env) (cfg : Config) : failureUnwinds env cfg := by
  intro w g inp hcall hret
  have hc : ∀ (what : String) (r : Ret) (pc : Pc) (push : List Deferred), r ≠ .ok →
      (construct what r pc push w g).g.pc = .deferred ∧
        (construct what r pc push w g).g.defers = g.defers ∧
        (construct what r pc push w g).spawn = false := by
    intro what r pc push hr
    cases r with
    | ok => exact absurd rfl hr
    | err e => simp [construct]
    | panicked v => simp [construct]
  have hnew : libp2pNew env cfg.listenAddrs inp.ret ≠ .ok := by
    unfold libp2pNew
    cases ListenAddrStrings env cfg.listenAddrs with
    | error e => simp
    | ok mas =>
      cases hr : inp.ret with
      | ok => exact absurd hr hret
      | err e => simp
      | panicked v => simp
  cases h : g.pc with
  | GenerateKeyPair => simpa [Goroutine.step, h] using hc _ _ .NewConnManager [] hret
  | NewConnManager => simpa [Goroutine.step, h] using hc _ _ .New [] hret
  | New => simpa [Goroutine.step, h] using hc _ _ .NewGossipSub [.hClose] hnew
  | NewGossipSub => simpa [Goroutine.step, h] using hc _ _ .Join [] hret
  | Join => simpa [Goroutine.step, h] using hc _ _ .Subscribe [.thClose] hret
  | Subscribe => simpa [Goroutine.step, h] using hc _ _ .Next [.subCancel] hret
  | Next =>
    cases hr : inp.ret with
    | ok => exact absurd hr hret
    | err e => simp [Goroutine.step, h, receive, hr]
    | panicked v => simp [Goroutine.step, h, receive, hr]
  | entry => simp [h, Pc.isCall] at hcall
  | deferred => simp [h, Pc.isCall] at hcall
  | exited => simp [h, Pc.isCall] at hcall
  | crashed => simp [h, Pc.isCall] at hcall

theorem panicOnlyReported_holds : panicOnlyReported := by
  intro w p now
  refine ⟨?_, rfl, rfl⟩
  cases p <;> by_cases hlt : wrapInt64 (now - w.startTime) < 30 * Second <;>
    simp [recoverRerun, panicReport, hlt]

theorem Sys.Inv.relaunches (env : Env) (cfg : Config) (s : Sys) (hinv : s.Inv) :
    s.relaunches env cfg := by
  obtain ⟨pre, g0, h, hpre, ha⟩ := hinv
  intro i g hi hpc hph inputs hlen
  obtain ⟨rfl, rfl⟩ := Sys.Inv.index_of_phase s pre g0 h hpre i g hi hph
  rcases ha with ⟨hentry, _⟩ | ⟨_, _, _, ds, hds, hnot⟩
  · rw [hpc] at hentry; cases hentry
  · obtain ⟨⟨g', hgs, hfin⟩, hout⟩ := Sys.unwind env cfg ds s pre g h hpc hds hnot inputs
      (by rw [hlen, hds]; simp)
    refine ⟨by rw [hgs, h]; simp, by rw [hgs]; simp, ?_, hout⟩
    rw [hgs]
    have : (pre ++ [g', Goroutine.fresh])[pre.length]? = some g' := by
      rw [List.getElem?_append_right (Nat.le_refl _)]
      simp
    rw [this]
    exact (finished_phase g' hfin).1

/-- C5: in every state the program can reach, some goroutine is in a
supervisor state and none has been left by a panic, so no terminal state is
reachable; every failing call of a run, by error or by panic, sends the run
into its deferred calls; from a run that has ended, the deferred calls end
with `recoverRerun` launching the routine anew, whatever the answers of the
environment are, and the launched goroutine is in state STARTING; a panic
changes the work of `recoverRerun` by its report line only. -/
theorem supervisor_always_restarts (env : Env) (cfg : Config) (s : Sys)
    (h : Reachable env cfg s) :
    s.hasActiveRun ∧ s.noCrash ∧ failureUnwinds env cfg ∧ s.relaunches env cfg ∧
      Goroutine.fresh.phase = some .STARTING ∧ panicOnlyReported := by
  have hinv := reachable_inv env cfg s h
  refine ⟨?_, ?_, failureUnwinds_holds env cfg, Sys.Inv.relaunches env cfg s hinv, rfl,
    panicOnlyReported_holds⟩
  · obtain ⟨pre, g, hgs, _, ha⟩ := hinv
    exact ⟨pre.length, g, by rw [hgs, List.getElem?_concat_length], active_phase g ha⟩
  · obtain ⟨pre, g, hgs, hpre, ha⟩ := hinv
    intro x hx
    rw [hgs] at hx
    rcases List.mem_append.1 hx with hx | hx
    · exact (finished_phase x (hpre x hx)).2
    · rw [List.mem_singleton.1 hx]
      rcases ha with ⟨hentry, _⟩ | ⟨_, _, h3, _⟩
      · rw [hentry]; decide
      · exact h3

/-- C5, at the state in a failed run, before `recoverRerun`. -/
theorem supervisor_always_restarts_witness :
    Reachable sampleEnv sampleConfig inFailedRun ∧
      inFailedRun.hasActiveRun ∧ inFailedRun.noCrash ∧
      failureUnwinds sampleEnv sampleConfig ∧ inFailedRun.relaunches sampleEnv sampleConfig ∧
      Goroutine.fresh.phase = some .STARTING ∧ panicOnlyReported :=
  ⟨Reachable.steps sampleEnv sampleConfig 0 _ Sys.init Reachable.init,
    supervisor_always_restarts sampleEnv sampleConfig inFailedRun
      (Reachable.steps sampleEnv sampleConfig 0 _ Sys.init Reachable.init)⟩

/-- C9: in every state the program can reach, at most one goroutine is in a
supervisor state, so no two runs are in the receive loop together; a step
adds a goroutine only when the stepping goroutine runs `recoverRerun` with no
other deferred call left, after which it has nothing more to run; and
`recoverRerun` is at the bottom of every stack of deferred calls, below
`sub.Cancel`, `th.Close` and `h.Close`. -/
theorem at_most_one_active_run (env : Env) (cfg : Config) (s : Sys)
    (h : Reachable env cfg s) :
    s.oneActiveRun ∧ s.noTwoRunning ∧ s.launchOnlyLast env cfg ∧ s.recoverRerunLast := by
  obtain ⟨pre, g, hgs, hpre, ha⟩ := reachable_inv env cfg s h
  have hone : s.oneActiveRun := by
    intro i j gi gj hi hj hpi hpj
    rw [(Sys.Inv.index_of_phase s pre g hgs hpre i gi hi hpi).1,
      (Sys.Inv.index_of_phase s pre g hgs hpre j gj hj hpj).1]
  refine ⟨hone, ?_, ?_, ?_⟩
  · intro i j gi gj hi hj hpi hpj
    exact hone i j gi gj hi hj (by rw [hpi]; simp) (by rw [hpj]; simp)
  · intro i inp hlen
    rcases Sys.step_cases env cfg s pre g hgs hpre ha i inp with ⟨heq, _⟩ | ⟨hi, h3, h4, h5, _⟩
    · exact absurd heq hlen
    · refine ⟨g, by rw [hi, hgs, List.getElem?_concat_length], h3, h4, ?_⟩
      rw [h5, hgs, hi, List.set_append_right _ _ (Nat.le_refl _)]
      simp
  · intro x hx
    rw [hgs] at hx
    rcases List.mem_append.1 hx with hx | hx
    · exact Or.inl (hpre x hx).1
    · rw [List.mem_singleton.1 hx]
      rcases ha with ⟨_, hd⟩ | ⟨_, _, _, hb⟩
      · exact Or.inl hd
      · exact Or.inr hb

/-- C9, at the state after a failed run. -/
theorem at_most_one_active_run_witness :
    Reachable sampleEnv sampleConfig afterFailedRun ∧
      afterFailedRun.oneActiveRun ∧ afterFailedRun.noTwoRunning ∧
      afterFailedRun.launchOnlyLast sampleEnv sampleConfig ∧ afterFailedRun.recoverRerunLast :=
  ⟨Reachable.steps sampleEnv sampleConfig 0 _ Sys.init Reachable.init,
    at_most_one_active_run sampleEnv sampleConfig afterFailedRun
      (Reachable.steps sampleEnv sampleConfig 0 _ Sys.init Reachable.init)⟩

end P2P
